import Mathlib

/-!
Shallow embedding of the zellij-crew tab-bar plugin core
(`src/plugin/src/main.rs`): the pool name allocator, the Leader tab
reconciler, the status/audit functions, the idle-sleep sweep, the
"tell" messaging relay, and the election trigger on tab snapshots.
Machine integers (`u32`, `u64`, `usize`) are modelled as `Nat`;
`saturating_sub` is `Nat` subtraction; Rust `HashMap`s are modelled as
association lists keyed by `tab_id` (resp. tab position).
-/

/-- `AllocationMode` from main.rs: `RoundRobin` or `FillIn`. -/
inductive AllocationMode where
  | RoundRobin
  | FillIn
deriving DecidableEq, Repr

/-- `ActivityStatus` from main.rs: the closed seven-value status enum. -/
inductive ActivityStatus where
  | Unknown
  | Idle
  | Working
  | Question
  | Sleeping
  | Watching
  | Attention
deriving DecidableEq, Repr

/-- `ActivityStatus::status_str` from main.rs. -/
def ActivityStatus.status_str : ActivityStatus → String
  | .Unknown => "unknown"
  | .Idle => "idle"
  | .Working => "working"
  | .Question => "question"
  | .Sleeping => "sleeping"
  | .Watching => "watching"
  | .Attention => "attention"

/-- `CrewTabState` from main.rs.  The `serde(skip)` fields
(`pending_rename`, `last_msg_to`, `last_msg_from`, `status_updated_at`,
`last_activity_at`) are local-only: they are dropped when a record is
serialized for broadcast (see `broadcastRecord`). -/
structure CrewTabState where
  tab_id : Nat
  position : Nat
  name : String
  pending_rename : Option String
  user_defined : Bool
  status : ActivityStatus
  last_msg_to : Option (Nat × Nat)
  last_msg_from : Option (Nat × Nat)
  status_updated_at : Option Nat
  last_activity_at : Option Nat
deriving DecidableEq, Repr

/-- The fields of zellij's `TabInfo` the plugin reads. -/
structure TabInfo where
  tab_id : Nat
  position : Nat
  name : String
  active : Bool
deriving DecidableEq, Repr

/-- The fields of zellij's `PaneInfo` the plugin reads. -/
structure PaneInfo where
  id : Nat
  is_plugin : Bool
deriving DecidableEq, Repr

/-- Pane manifest: host-reported mapping from tab position to the panes
inside that tab (`PaneManifest.panes`). -/
abbrev PaneManifest := List (Nat × List PaneInfo)

/-- Names currently in use by the pool, as computed at the top of
`State::allocate_from_pool`: the names of all non-`user_defined` tabs. -/
def usedNames (known : List CrewTabState) : List String :=
  (known.filter (fun t => !t.user_defined)).map (fun t => t.name)

/-- The round-robin scan inside `State::allocate_from_pool`:
`for offset in 0..pool_len { let idx = (start_idx + offset) % pool_len; ... }`,
returning the first index whose name is not in the used set. -/
def rrFindIdx (names used : List String) (start : Nat) : Option Nat :=
  ((List.range names.length).find?
      (fun off => ! used.contains (names.getD ((start + off) % names.length) ""))).map
    (fun off => (start + off) % names.length)

/-- The round-robin start index:
`self.last_assigned_idx.map(|i| i + 1).unwrap_or(0)`. -/
def rrStart : Option Nat → Nat
  | some i => i + 1
  | none => 0

/-- `State::allocate_from_pool` from main.rs, as a pure function of the
pool, mode, round-robin cursor (`last_assigned_idx`) and used-name set.
Returns the allocated name (if any) and the updated cursor. -/
def allocate_from_pool (names : List String) (mode : AllocationMode)
    (last : Option Nat) (used : List String) : Option String × Option Nat :=
  if names.isEmpty then (none, last)
  else
    match mode with
    | AllocationMode.RoundRobin =>
      match rrFindIdx names used (rrStart last) with
      | some idx => (some (names.getD idx ""), some idx)
      | none => (none, last)
    | AllocationMode.FillIn =>
      match names.find? (fun n => ! used.contains n) with
      | some n => (some n, last)
      | none => (none, last)

/-- Lookup in the Leader's `known_tabs` map by `tab_id`
(`self.known_tabs.get(&tab_id)`). -/
def findTab (known : List CrewTabState) (id : Nat) : Option CrewTabState :=
  known.find? (fun t => t.tab_id == id)

/-- In-place mutation of the record with the given `tab_id`
(`self.known_tabs.get_mut(&tab_id)` followed by field updates). -/
def updateTab (known : List CrewTabState) (id : Nat)
    (f : CrewTabState → CrewTabState) : List CrewTabState :=
  known.map (fun t => if t.tab_id == id then f t else t)

/-- The name handling for an already-known tab in
`State::handle_leader_tab_update`: pending-rename confirmation, else
user-rename detection. -/
def applyNameLogic (ct : CrewTabState) (tab : TabInfo) : CrewTabState :=
  match ct.pending_rename with
  | some pending =>
    if pending = tab.name then
      { ct with name := tab.name, position := tab.position, pending_rename := none }
    else
      ct
  | none =>
    if ct.name ≠ tab.name then
      { ct with name := tab.name, user_defined := true, position := tab.position }
    else
      ct

/-- The trailing position refresh in `State::handle_leader_tab_update`
(`if crew_tab.position != tab.position { crew_tab.position = tab.position }`). -/
def refreshPosition (ct : CrewTabState) (tab : TabInfo) : CrewTabState :=
  if ct.position ≠ tab.position then { ct with position := tab.position } else ct

/-- Full processing of an already-known tab in one reconciliation pass. -/
def reconcileExisting (ct : CrewTabState) (tab : TabInfo) : CrewTabState :=
  refreshPosition (applyNameLogic ct tab) tab

/-- The `CrewTabState` literal inserted for a newly-seen tab in
`State::handle_leader_tab_update`. -/
def newTabRecord (tab : TabInfo) (pending : Option String) (ud : Bool) : CrewTabState :=
  { tab_id := tab.tab_id
    position := tab.position
    name := tab.name
    pending_rename := pending
    user_defined := ud
    status := ActivityStatus.Unknown
    last_msg_to := none
    last_msg_from := none
    status_updated_at := none
    last_activity_at := none }

/-- Rust `str::starts_with`, modelled on the character data so that the
kernel can evaluate it on literals. -/
def strStartsWith (pre s : String) : Bool :=
  pre.data.isPrefixOf s.data

/-- The Leader-side state that `State::handle_leader_tab_update` and
`State::allocate_from_pool` read and write. -/
structure LeaderState where
  names : List String
  mode : AllocationMode
  known_tabs : List CrewTabState
  last_assigned_idx : Option Nat
deriving Repr

/-- The per-incoming-tab body of the loop in
`State::handle_leader_tab_update`.  Returns the updated state together
with the accumulated list of `rename_tab_with_id(tab_id, name)` commands
issued so far.  On pool exhaustion the tab is only logged, not inserted. -/
def processTab (st : LeaderState) (renames : List (Nat × String)) (tab : TabInfo) :
    LeaderState × List (Nat × String) :=
  match findTab st.known_tabs tab.tab_id with
  | some _ =>
    ({ st with known_tabs := updateTab st.known_tabs tab.tab_id (fun ct => reconcileExisting ct tab) },
     renames)
  | none =>
    if strStartsWith "Tab #" tab.name then
      match allocate_from_pool st.names st.mode st.last_assigned_idx (usedNames st.known_tabs) with
      | (some newName, cursor) =>
        ({ st with known_tabs := st.known_tabs ++ [newTabRecord tab (some newName) false]
                   last_assigned_idx := cursor },
         renames ++ [(tab.tab_id, newName)])
      | (none, cursor) =>
        ({ st with last_assigned_idx := cursor }, renames)
    else
      ({ st with known_tabs := st.known_tabs ++ [newTabRecord tab none true] }, renames)

/-- `State::handle_leader_tab_update` from main.rs: one reconciliation
pass over a full tab snapshot, followed by removal of closed tabs.
Returns the updated Leader state and the rename commands issued. -/
def handle_leader_tab_update (st : LeaderState) (tabs : List TabInfo) :
    LeaderState × List (Nat × String) :=
  let folded := tabs.foldl (fun (p : LeaderState × List (Nat × String)) tab => processTab p.1 p.2 tab) (st, [])
  let seen := tabs.map (fun t => t.tab_id)
  ({ folded.1 with known_tabs := folded.1.known_tabs.filter (fun t => seen.contains t.tab_id) },
   folded.2)

/-- The serialize-then-deserialize round trip a `CrewTabState` record
undergoes when carried in a `leader-resign` (or `leader-ack`) payload:
all `serde(skip)` fields revert to their defaults (`None`). -/
def broadcastRecord (t : CrewTabState) : CrewTabState :=
  { t with pending_rename := none
           last_msg_to := none
           last_msg_from := none
           status_updated_at := none
           last_activity_at := none }

/-- The canonical map a newly elected Leader adopts in
`State::become_leader` after the previous Leader's
`State::resign_leadership` broadcast carried map `known`. -/
def resignInherit (known : List CrewTabState) : List CrewTabState :=
  known.map broadcastRecord

/-- The status-keyword match at the top of `State::update_name_status` /
`State::update_pane_status` (an unrecognized keyword is rejected). -/
def parseStatus : String → Option ActivityStatus
  | "unknown" => some ActivityStatus.Unknown
  | "idle" => some ActivityStatus.Idle
  | "working" => some ActivityStatus.Working
  | "question" => some ActivityStatus.Question
  | "sleeping" => some ActivityStatus.Sleeping
  | "watching" => some ActivityStatus.Watching
  | "attention" => some ActivityStatus.Attention
  | _ => none

/-- One line of the append-only audit log written by `State::log_event`
for a status-change attempt (`"t": "status"` records). -/
structure AuditRecord where
  tag : String
  ts : Nat
  name : Option String
  pane : Option Nat
  old : Option String
  new : String
  changed : Option Bool
  err : Option String
deriving DecidableEq, Repr

/-- The manifest scan shared by `State::update_pane_status`,
`State::resolve_pane_name` and the `PaneRenderReport` handler: find the
tab position whose pane list holds a non-plugin pane with this id. -/
def paneTabPos (manifest : Option PaneManifest) (pane_id : Nat) : Option Nat :=
  match manifest with
  | none => none
  | some m =>
    ((m.find? (fun pr => pr.2.any (fun p => !p.is_plugin && p.id == pane_id))).map
      (fun pr => pr.1))

/-- Map a tab position to its stable `tab_id` via the last `TabUpdate`
snapshot (`self.tabs.iter().find(|t| t.position == tab_pos)`). -/
def posTabId (tabs : List TabInfo) (pos : Nat) : Option Nat :=
  (tabs.find? (fun t => t.position == pos)).map (fun t => t.tab_id)

/-- Pane id to `tab_id` resolution: manifest lookup then position lookup. -/
def resolvePaneTab (manifest : Option PaneManifest) (tabs : List TabInfo)
    (pane_id : Nat) : Option Nat :=
  (paneTabPos manifest pane_id).bind (posTabId tabs)

/-- `self.known_tabs.values_mut().find(...)` followed by mutation:
update the first record matching the name. -/
def updateFirstByName (known : List CrewTabState) (name : String)
    (f : CrewTabState → CrewTabState) : List CrewTabState :=
  match known with
  | [] => []
  | t :: ts => if t.name = name then f t :: ts else t :: updateFirstByName ts name f

/-- `State::update_name_status` from main.rs.  Returns the Rust return
value, the updated canonical map, and the audit records appended. -/
def update_name_status (known : List CrewTabState) (now : Nat)
    (name state_str : String) : Bool × List CrewTabState × List AuditRecord :=
  match parseStatus state_str with
  | none => (false, known, [])
  | some newStatus =>
    match known.find? (fun t => t.name == name) with
    | some t =>
      let changed := t.status ≠ newStatus
      let known2 := if changed then
          updateFirstByName known name
            (fun x => { x with status := newStatus, status_updated_at := some now })
        else known
      (changed, known2,
        [{ tag := "status", ts := now, name := some name, pane := none
           old := some t.status.status_str, new := state_str
           changed := some changed, err := none }])
    | none =>
      (false, known,
        [{ tag := "status", ts := now, name := some name, pane := none
           old := none, new := state_str, changed := none, err := some "tab not found" }])

/-- `State::update_pane_status` from main.rs.  The "no pane manifest"
and "pane not in manifest" sub-cases both fall to the same
`pane not found` audit record, exactly as in the source; a resolved
`tab_id` absent from `known_tabs` (or holding an empty name, the
sentinel the source uses) logs nothing. -/
def update_pane_status (known : List CrewTabState) (tabs : List TabInfo)
    (manifest : Option PaneManifest) (now : Nat) (pane_id : Nat)
    (state_str : String) : Bool × List CrewTabState × List AuditRecord :=
  match parseStatus state_str with
  | none => (false, known, [])
  | some newStatus =>
    match paneTabPos manifest pane_id with
    | none =>
      (false, known,
        [{ tag := "status", ts := now, name := none, pane := some pane_id
           old := none, new := state_str, changed := none, err := some "pane not found" }])
    | some tab_pos =>
      match posTabId tabs tab_pos with
      | none =>
        (false, known,
          [{ tag := "status", ts := now, name := none, pane := some pane_id
             old := none, new := state_str, changed := none
             err := some "unmapped tab_position" }])
      | some tab_id =>
        match findTab known tab_id with
        | none => (false, known, [])
        | some t =>
          let changed := t.status ≠ newStatus
          let known2 := if changed then
              updateTab known tab_id
                (fun x => { x with status := newStatus, status_updated_at := some now })
            else known
          if t.name = "" then (false, known2, [])
          else
            (changed, known2,
              [{ tag := "status", ts := now, name := some t.name, pane := some pane_id
                 old := some t.status.status_str, new := state_str
                 changed := some changed, err := none }])

/-- `status_stale` in the `Event::Timer` sweep:
`crew_tab.status_updated_at.map(|t| now.saturating_sub(t) >= threshold).unwrap_or(false)`. -/
def statusStale (threshold now : Nat) (t : CrewTabState) : Bool :=
  match t.status_updated_at with
  | some u => decide (threshold ≤ now - u)
  | none => false

/-- `activity_stale` in the `Event::Timer` sweep:
`crew_tab.last_activity_at.map(|t| now.saturating_sub(t) >= threshold).unwrap_or(true)`. -/
def activityStale (threshold now : Nat) (t : CrewTabState) : Bool :=
  match t.last_activity_at with
  | some a => decide (threshold ≤ now - a)
  | none => true

/-- The per-tab body of the periodic idle sweep in the `Event::Timer`
handler: tabs already `Sleeping` or `Unknown` are skipped; otherwise a
tab that is both status-stale and activity-stale is forced to
`Sleeping` with its status timestamp refreshed. -/
def sweepTab (threshold now : Nat) (t : CrewTabState) : CrewTabState :=
  if t.status = ActivityStatus.Sleeping ∨ t.status = ActivityStatus.Unknown then t
  else if statusStale threshold now t && activityStale threshold now t then
    { t with status := ActivityStatus.Sleeping, status_updated_at := some now }
  else t

/-- The whole periodic sweep in the `Event::Timer` handler, including
its `self.config.idle_sleep_secs > 0` guard: with a zero threshold the
sweep body never runs. -/
def timerSweep (threshold now : Nat) (known : List CrewTabState) : List CrewTabState :=
  if threshold = 0 then known else known.map (sweepTab threshold now)

/-- The per-tab body of the `Event::PaneRenderReport` handler once the
pane was resolved to this tab: record the activity time and wake a
`Sleeping` tab to `Idle`. -/
def paneRenderWakeTab (now : Nat) (t : CrewTabState) : CrewTabState :=
  let t2 := { t with last_activity_at := some now }
  if t.status = ActivityStatus.Sleeping then
    { t2 with status := ActivityStatus.Idle, status_updated_at := some now }
  else t2

/-- The `Event::PaneRenderReport` handler (Leader side) for one reported
terminal pane id: resolve the pane to a tab and apply
`paneRenderWakeTab`; unresolvable panes leave the map unchanged. -/
def handlePaneRender (manifest : Option PaneManifest) (tabs : List TabInfo)
    (known : List CrewTabState) (now : Nat) (pane_id : Nat) : List CrewTabState :=
  match resolvePaneTab manifest tabs pane_id with
  | none => known
  | some id => updateTab known id (paneRenderWakeTab now)

/-- `str::eq_ignore_ascii_case` as used to resolve a tell recipient:
bytewise comparison under ASCII lowercasing, modelled on the character
data so that the kernel can evaluate it. -/
def eqIgnoreCase (a b : String) : Bool :=
  a.data.map Char.toLower == b.data.map Char.toLower

/-- `State::resolve_pane_name` from main.rs: terminal pane id to the
crew tab name containing it. -/
def resolve_pane_name (manifest : Option PaneManifest) (tabs : List TabInfo)
    (known : List CrewTabState) (pane_id : Nat) : Option String :=
  (resolvePaneTab manifest tabs pane_id).bind
    (fun id => (findTab known id).map (fun ct => ct.name))

/-- The Leader state read and written by `State::handle_tell_message`. -/
structure TellState where
  known_tabs : List CrewTabState
  pane_manifest : Option PaneManifest
  tabs : List TabInfo
  tell_append : String
  next_msg_id : Nat
  pending_tell_enter : Option Nat
deriving Repr

/-- The synchronous reply `State::handle_tell_message` produces on the
CLI pipe: one of the five error messages, or the delivery confirmation. -/
inductive TellOutcome where
  | errMissingTo
  | errMissingBody
  | errTabNotFound (dest : String)
  | errNoManifest
  | errNoTerminalPane (dest : String)
  | delivered (msg_id pane : Nat)
deriving DecidableEq, Repr

/-- The sender-name resolution at the top of `State::handle_tell_message`:
parse the `pane` arg, resolve it through the manifest, and fall back to
`"pane <arg>"` or `"unknown"`. -/
def tellSender (st : TellState) (paneArg : Option String) : String :=
  match paneArg with
  | none => "unknown"
  | some s =>
    match s.toNat? with
    | some id => (resolve_pane_name st.pane_manifest st.tabs st.known_tabs id).getD ("pane " ++ s)
    | none => "pane " ++ s

/-- The formatted delivery block written into the destination pane,
including the configured append template with its named-placeholder
substitutions (`\x7bfrom\x7d`, `\x7bto\x7d`, `\x7bmessage\x7d`, `\x7bid\x7d`). -/
def tellFormatted (tell_append sender dest_name message : String) (msg_id : Nat) : String :=
  let append := ((((tell_append.replace "\x7bfrom\x7d" sender).replace
      "\x7bto\x7d" dest_name).replace "\x7bmessage\x7d" message).replace
      "\x7bid\x7d" (toString msg_id))
  "\n[CREW MESSAGE #" ++ toString msg_id ++ " from " ++ sender ++ "; to: " ++ dest_name
    ++ "] " ++ message ++ "\n" ++ append ++ "\n"

/-- `State::handle_tell_message` from main.rs.  Returns the synchronous
outcome, the list of `write_to_pane_id` writes performed, and the
updated Leader state.  Note the source increments `next_msg_id` after
recipient resolution but before the manifest / terminal-pane checks, so
those two failure paths consume a message id. -/
def handle_tell_message (st : TellState) (toArg payload paneArg : Option String)
    (now : Nat) : TellOutcome × List (Nat × String) × TellState :=
  match toArg with
  | none => (TellOutcome.errMissingTo, [], st)
  | some dest =>
    match payload with
    | none => (TellOutcome.errMissingBody, [], st)
    | some message =>
      if message = "" then (TellOutcome.errMissingBody, [], st)
      else
        let sender := tellSender st paneArg
        match st.known_tabs.find? (fun t => eqIgnoreCase t.name dest) with
        | none => (TellOutcome.errTabNotFound dest, [], st)
        | some t =>
          let dest_name := t.name
          let dest_position := t.position
          let st1 := { st with next_msg_id := st.next_msg_id + 1 }
          let msg_id := st1.next_msg_id
          match st1.pane_manifest with
          | none => (TellOutcome.errNoManifest, [], st1)
          | some manifest =>
            match (manifest.lookup dest_position).bind
                (fun panes => panes.find? (fun p => ! p.is_plugin)) with
            | none => (TellOutcome.errNoTerminalPane dest, [], st1)
            | some pane =>
              let formatted := tellFormatted st1.tell_append sender dest_name message msg_id
              let st2 := { st1 with pending_tell_enter := some pane.id }
              let known2 := updateFirstByName st2.known_tabs dest_name
                (fun x => { x with last_msg_to := some (msg_id, now) })
              let known3 := updateFirstByName known2 sender
                (fun x => { x with last_msg_from := some (msg_id, now) })
              (TellOutcome.delivered msg_id pane.id, [(pane.id, formatted)],
               { st2 with known_tabs := known3 })

/-- The per-instance fields the `Event::TabUpdate` handler's
election-trigger check reads and writes. -/
structure RendererView where
  is_leader : Bool
  election_pending : Bool
  tabs : List TabInfo
  received_tabs : List CrewTabState
deriving Repr

/-- The guard in the `Event::TabUpdate` handler:
`!self.is_leader && !self.election_pending && self.tabs.is_empty()`. -/
def tabUpdateStartsElection (st : RendererView) : Bool :=
  !st.is_leader && !st.election_pending && st.tabs.isEmpty

/-- The election-relevant effect of the `Event::TabUpdate` handler on a
non-Leader instance: possibly self-trigger an election
(`State::start_election` sets `election_pending` and broadcasts a PING,
reported here as the returned Bool), then cache the snapshot. -/
def handleTabUpdateElection (st : RendererView) (tabs : List TabInfo) :
    RendererView × Bool :=
  if tabUpdateStartsElection st then
    ({ st with election_pending := true, tabs := tabs }, true)
  else
    ({ st with tabs := tabs }, false)

/-- One allocation step of the scenario in the round-robin cycle law:
call `State::allocate_from_pool`, and when it yields a name let the
Leader accept it (the name enters the used set before the next call). -/
def rrStep (names : List String) (st : Option Nat × List String) :
    Option String × (Option Nat × List String) :=
  match allocate_from_pool names AllocationMode.RoundRobin st.1 st.2 with
  | (some n, c) => (some n, (c, n :: st.2))
  | (none, c) => (none, (c, st.2))

/-- Cursor and used set after `j` accepted allocations. -/
def rrStateAfter (names : List String) (st : Option Nat × List String) :
    Nat → Option Nat × List String
  | 0 => st
  | Nat.succ j => (rrStep names (rrStateAfter names st j)).2

/-- The name returned by the k-th allocation (1-indexed) in the
round-robin cycle-law scenario. -/
def rrNth (names : List String) (st : Option Nat × List String) (k : Nat) : Option String :=
  (rrStep names (rrStateAfter names st (k - 1))).1

lemma contains_iff_mem_str (l : List String) (a : String) : l.contains a = true ↔ a ∈ l := by
  exact List.elem_iff

lemma contains_false_iff_str (l : List String) (a : String) : l.contains a = false ↔ a ∉ l := by
  rw [← contains_iff_mem_str]
  cases h : l.contains a <;> simp

lemma getD_eq_get_str (l : List String) (i : Nat) (h : i < l.length) :
    l.getD i "" = l.get ⟨i, h⟩ := by
  simp [List.getD_eq_getElem?_getD, List.getElem?_eq_getElem h, List.get_eq_getElem]

lemma getD_mem_str (l : List String) (i : Nat) (h : i < l.length) : l.getD i "" ∈ l := by
  rw [getD_eq_get_str l i h]
  exact l.get_mem i h

lemma getD_inj_str (l : List String) (hnd : l.Nodup) (i j : Nat)
    (hi : i < l.length) (hj : j < l.length)
    (h : l.getD i "" = l.getD j "") : i = j := by
  rw [getD_eq_get_str l i hi, getD_eq_get_str l j hj] at h
  have := (List.Nodup.get_inj_iff hnd).mp h
  exact congrArg Fin.val this

lemma exists_offset_mod (start i N : Nat) (hN : 0 < N) (hi : i < N) :
    ∃ off, off < N ∧ (start + off) % N = i := by
  have hm : start % N < N := Nat.mod_lt _ hN
  by_cases hle : start % N ≤ i
  · refine ⟨i - start % N, by omega, ?_⟩
    have h1 : (start + (i - start % N)) % N = (start % N + (i - start % N) % N) % N :=
      Nat.add_mod _ _ _
    have h2 : (i - start % N) % N = i - start % N := Nat.mod_eq_of_lt (by omega)
    have h3 : start % N + (i - start % N) = i := by omega
    rw [h1, h2, h3]
    exact Nat.mod_eq_of_lt hi
  · refine ⟨i + N - start % N, by omega, ?_⟩
    have h1 : (start + (i + N - start % N)) % N = (start % N + (i + N - start % N) % N) % N :=
      Nat.add_mod _ _ _
    have h2 : (i + N - start % N) % N = i + N - start % N := Nat.mod_eq_of_lt (by omega)
    have h3 : start % N + (i + N - start % N) = i + N := by omega
    rw [h1, h2, h3, Nat.add_mod_right]
    exact Nat.mod_eq_of_lt hi

lemma mod_ne_of_window (c0 i j N : Nat) (hij : i < j) (hw : j - i < N) :
    (c0 + i) % N ≠ (c0 + j) % N := by
  intro h
  have hmod : (c0 + i) ≡ (c0 + j) [MOD N] := h
  have hdvd : N ∣ (c0 + j) - (c0 + i) := (Nat.modEq_iff_dvd' (by omega)).mp hmod
  have heq : (c0 + j) - (c0 + i) = j - i := by omega
  rw [heq] at hdvd
  have := Nat.le_of_dvd (by omega) hdvd
  omega

lemma rrFindIdx_head_hit (names used : List String) (start : Nat)
    (hne : names ≠ [])
    (hc : used.contains (names.getD (start % names.length) "") = false) :
    rrFindIdx names used start = some (start % names.length) := by
  obtain ⟨n, hn⟩ : ∃ n, names.length = n + 1 := by
    cases h : names.length with
    | zero => exact absurd (List.length_eq_zero.mp h) hne
    | succ n => exact ⟨n, rfl⟩
  unfold rrFindIdx
  rw [hn] at hc ⊢
  rw [List.range_succ_eq_map]
  have hp : (fun off => ! used.contains (names.getD ((start + off) % (n + 1)) "")) 0 = true := by
    show (! used.contains (names.getD ((start + 0) % (n + 1)) "")) = true
    rw [Nat.add_zero, hc]
    rfl
  have hfind := List.find?_cons_of_pos
    (p := fun off => ! used.contains (names.getD ((start + off) % (n + 1)) ""))
    (List.map Nat.succ (List.range n)) hp
  rw [hfind]
  show some ((start + 0) % (n + 1)) = some (start % (n + 1))
  rw [Nat.add_zero]

lemma rrFindIdx_none_iff (names used : List String) (start : Nat) :
    rrFindIdx names used start = none ↔ ∀ n ∈ names, n ∈ used := by
  rcases h0 : names.length with _ | m
  · constructor
    · intro _ n hn
      exact absurd hn (by simp [List.length_eq_zero.mp h0])
    · intro _
      unfold rrFindIdx
      simp [h0]
  · have hN : 0 < names.length := by omega
    unfold rrFindIdx
    rw [Option.map_eq_none']
    rw [List.find?_eq_none]
    constructor
    · intro h n hn
      obtain ⟨⟨i, hi⟩, hget⟩ := List.mem_iff_get.mp hn
      obtain ⟨off, hoff, hmod⟩ := exists_offset_mod start i names.length hN hi
      have := h off (List.mem_range.mpr hoff)
      rw [hmod] at this
      rw [getD_eq_get_str names i hi, hget] at this
      simpa using this
    · intro h off _
      have hidx : (start + off) % names.length < names.length := Nat.mod_lt _ hN
      have hmem : names.getD ((start + off) % names.length) "" ∈ names := getD_mem_str _ _ hidx
      have hcon : used.contains (names.getD ((start + off) % names.length) "") = true :=
        (contains_iff_mem_str _ _).mpr (h _ hmem)
      rw [hcon]
      simp

lemma allocate_rr_none_iff (names used : List String) (last : Option Nat) :
    (allocate_from_pool names AllocationMode.RoundRobin last used).1 = none ↔
      ∀ n ∈ names, n ∈ used := by
  rcases hne : names.isEmpty with _ | _
  · unfold allocate_from_pool
    rw [hne]
    simp only [Bool.false_eq_true, if_false]
    rcases hf : rrFindIdx names used (rrStart last) with _ | idx
    · simpa using (rrFindIdx_none_iff names used _).mp hf
    · constructor
      · intro h
        simp at h
      · intro h
        have hnone : rrFindIdx names used (rrStart last) = none :=
          (rrFindIdx_none_iff names used _).mpr h
        rw [hnone] at hf
        cases hf
  · have : names = [] := List.isEmpty_iff.mp hne
    subst this
    simp [allocate_from_pool]

lemma allocate_none_cursor (names : List String) (mode : AllocationMode)
    (last : Option Nat) (used : List String)
    (h : (allocate_from_pool names mode last used).1 = none) :
    (allocate_from_pool names mode last used).2 = last := by
  unfold allocate_from_pool at *
  rcases hne : names.isEmpty with _ | _ <;> simp only [hne] at h ⊢
  · rcases mode with _ | _ <;> simp only at h ⊢
    · rcases hf : rrFindIdx names used _ with _ | idx <;> simp [hf] at h ⊢
    · rcases hf : names.find? (fun n => ! used.contains n) with _ | n <;> simp [hf] at h ⊢
  · simp

lemma find?_first_idx {α : Type} (p : α → Bool) :
    ∀ (l : List α) (x : α), l.find? p = some x →
      ∃ i, ∃ hi : i < l.length, l.get ⟨i, hi⟩ = x ∧ p x = true ∧
        ∀ j, (hj : j < l.length) → j < i → p (l.get ⟨j, hj⟩) = false
  | [], x, h => by simp at h
  | a :: l, x, h => by
    rcases hpa : p a with _ | _
    · rw [List.find?_cons, hpa] at h
      obtain ⟨i, hi, hget, hpx, hmin⟩ := find?_first_idx p l x h
      refine ⟨i + 1, by simpa using Nat.succ_lt_succ hi, by simpa using hget, hpx, ?_⟩
      intro j hj hji
      cases j with
      | zero => simpa using hpa
      | succ j' =>
        have hj' : j' < l.length := by simpa using hj
        have := hmin j' hj' (by omega)
        simpa using this
    · rw [List.find?_cons, hpa] at h
      refine ⟨0, by simp, by simpa using Option.some.inj h, ?_, ?_⟩
      · rw [← Option.some.inj h]; exact hpa
      · intro j _ hj
        omega

lemma rr_step_compute (names : List String) (hnd : names.Nodup) (hN : 0 < names.length)
    (c0 j : Nat) (hj : j < names.length) (u : List String) (c : Nat)
    (hu : ∀ x, x ∈ u ↔ ∃ i, 1 ≤ i ∧ i ≤ j ∧ x = names.getD ((c0 + i) % names.length) "")
    (hc : (c + 1) % names.length = (c0 + j + 1) % names.length) :
    rrStep names (some c, u) =
      (some (names.getD ((c0 + j + 1) % names.length) ""),
       (some ((c0 + j + 1) % names.length),
        names.getD ((c0 + j + 1) % names.length) "" :: u)) := by
  have hne : names ≠ [] := by
    intro h
    rw [h] at hN
    simp at hN
  have hnotmem : names.getD ((c0 + j + 1) % names.length) "" ∉ u := by
    intro hmem
    obtain ⟨i, hi1, hij, heq⟩ := (hu _).mp hmem
    have hiN : (c0 + i) % names.length < names.length := Nat.mod_lt _ hN
    have hbN : (c0 + j + 1) % names.length < names.length := Nat.mod_lt _ hN
    have heq2 := getD_inj_str names hnd _ _ hbN hiN heq
    have hne2 : (c0 + i) % names.length ≠ (c0 + (j + 1)) % names.length :=
      mod_ne_of_window c0 i (j + 1) names.length (by omega) (by omega)
    rw [← Nat.add_assoc] at hne2
    exact hne2 heq2.symm
  have hcontains : u.contains (names.getD ((c + 1) % names.length) "") = false := by
    rw [hc]
    exact (contains_false_iff_str u _).mpr hnotmem
  have hfind : rrFindIdx names u (c + 1) = some ((c0 + j + 1) % names.length) := by
    rw [rrFindIdx_head_hit names u (c + 1) hne hcontains, hc]
  have halloc : allocate_from_pool names AllocationMode.RoundRobin (some c) u =
      (some (names.getD ((c0 + j + 1) % names.length) ""),
       some ((c0 + j + 1) % names.length)) := by
    unfold allocate_from_pool
    rw [show names.isEmpty = false from by simpa [List.isEmpty_iff] using hne]
    simp only [Bool.false_eq_true, if_false]
    show (match rrFindIdx names u (rrStart (some c)) with
      | some idx => (some (names.getD idx ""), some idx)
      | none => (none, (some c : Option Nat))) = _
    rw [show rrStart (some c) = c + 1 from rfl, hfind]
  unfold rrStep
  dsimp only
  rw [halloc]

lemma rr_cycle_inv (names : List String) (hnd : names.Nodup) (hN : 0 < names.length) (c0 : Nat) :
    ∀ j, j ≤ names.length →
      (rrStateAfter names (some c0, []) j).1 =
        some (if j = 0 then c0 else (c0 + j) % names.length) ∧
      ∀ x, x ∈ (rrStateAfter names (some c0, []) j).2 ↔
        ∃ i, 1 ≤ i ∧ i ≤ j ∧ x = names.getD ((c0 + i) % names.length) "" := by
  intro j
  induction j with
  | zero =>
    intro _
    refine ⟨rfl, ?_⟩
    intro x
    constructor
    · intro h
      cases h
    · rintro ⟨i, hi1, hi0, _⟩
      omega
  | succ j ih =>
    intro hj
    obtain ⟨hcur, hused⟩ := ih (by omega)
    have hc : ((if j = 0 then c0 else (c0 + j) % names.length) + 1) % names.length =
        (c0 + j + 1) % names.length := by
      by_cases hj0 : j = 0
      · rw [hj0]
        simp
      · rw [if_neg hj0]
        rw [Nat.mod_add_mod]
    have hstep := rr_step_compute names hnd hN c0 j (by omega)
      (rrStateAfter names (some c0, []) j).2
      (if j = 0 then c0 else (c0 + j) % names.length) hused hc
    have hpair : rrStateAfter names (some c0, []) j =
        (some (if j = 0 then c0 else (c0 + j) % names.length),
         (rrStateAfter names (some c0, []) j).2) := by
      rw [← hcur]
    have hnext : rrStateAfter names (some c0, []) (j + 1) =
        (some ((c0 + j + 1) % names.length),
         names.getD ((c0 + j + 1) % names.length) "" :: (rrStateAfter names (some c0, []) j).2) := by
      show (rrStep names (rrStateAfter names (some c0, []) j)).2 = _
      rw [hpair, hstep]
    rw [hnext]
    constructor
    · rw [if_neg (by omega : ¬ j + 1 = 0)]
      rw [show c0 + (j + 1) = c0 + j + 1 from by omega]
    · intro x
      rw [List.mem_cons]
      constructor
      · rintro (hx | hx)
        · exact ⟨j + 1, by omega, by omega, by rw [show c0 + (j + 1) = c0 + j + 1 from by omega]; exact hx⟩
        · obtain ⟨i, hi1, hij, hxi⟩ := (hused x).mp hx
          exact ⟨i, hi1, by omega, hxi⟩
      · rintro ⟨i, hi1, hij, hxi⟩
        by_cases hie : i = j + 1
        · left
          rw [hxi, hie]
          rw [show c0 + (j + 1) = c0 + j + 1 from by omega]
        · right
          exact (hused x).mpr ⟨i, hi1, by omega, hxi⟩

/-- Claim C5 (amended): for the round-robin allocator with a pool of N
distinct names, starting cursor c0, no removals, an initially empty used
set, and each allocated name entering the used set before the next call:
for every k from 1 to N, the k-th allocation returns
pool[(c0 + k) mod N] and updates the cursor to that index; and (for any
used set) the allocator returns none exactly when every pool name is in
the used set. -/
theorem C5_round_robin_cycle_law (names : List String) (c0 k : Nat)
    (used : List String) (last : Option Nat)
    (hnd : names.Nodup) (hN : 0 < names.length)
    (hk1 : 1 ≤ k) (hkN : k ≤ names.length) :
    rrNth names (some c0, []) k = some (names.getD ((c0 + k) % names.length) "") ∧
    (rrStateAfter names (some c0, []) k).1 = some ((c0 + k) % names.length) ∧
    ((allocate_from_pool names AllocationMode.RoundRobin last used).1 = none ↔
      ∀ n ∈ names, n ∈ used) := by
  obtain ⟨j, rfl⟩ : ∃ j, k = j + 1 := ⟨k - 1, by omega⟩
  obtain ⟨hcur, hused⟩ := rr_cycle_inv names hnd hN c0 j (by omega)
  have hc : ((if j = 0 then c0 else (c0 + j) % names.length) + 1) % names.length =
      (c0 + j + 1) % names.length := by
    by_cases hj0 : j = 0
    · rw [hj0]
      simp
    · rw [if_neg hj0, Nat.mod_add_mod]
  have hstep := rr_step_compute names hnd hN c0 j (by omega)
    (rrStateAfter names (some c0, []) j).2
    (if j = 0 then c0 else (c0 + j) % names.length) hused hc
  have hpair : rrStateAfter names (some c0, []) j =
      (some (if j = 0 then c0 else (c0 + j) % names.length),
       (rrStateAfter names (some c0, []) j).2) := by
    rw [← hcur]
  have hadd : c0 + (j + 1) = c0 + j + 1 := by omega
  refine ⟨?_, ?_, allocate_rr_none_iff names used last⟩
  · show (rrStep names (rrStateAfter names (some c0, []) (j + 1 - 1))).1 = _
    rw [show j + 1 - 1 = j from by omega, hpair, hstep, hadd]
  · show (rrStep names (rrStateAfter names (some c0, []) j)).2.1 = _
    rw [hpair, hstep, hadd]

/-- Claim C5, counterexample to the claim as stated: with a nonzero
initially used count (pool [a,b,c], cursor 2, name a already used) the
1st allocation returns b, not pool[(2 + 1) mod 3] = a as the cycle law
predicts. -/
theorem C5_cycle_law_counterexample :
    rrNth ["a", "b", "c"] (some 2, ["a"]) 1 = some "b" ∧
    ["a", "b", "c"].getD ((2 + 1) % 3) "" = "a" ∧ some "b" ≠ some "a" := by
  refine ⟨by rfl, by rfl, by simp⟩

/-- Witness for C5 at a concrete input. -/
theorem C5_round_robin_cycle_law_witness :
    rrNth ["a", "b"] (some 0, []) 1 = some (["a", "b"].getD ((0 + 1) % 2) "") ∧
    (rrStateAfter ["a", "b"] (some 0, []) 1).1 = some ((0 + 1) % 2) ∧
    ((allocate_from_pool ["a", "b"] AllocationMode.RoundRobin none []).1 = none ↔
      ∀ n ∈ ["a", "b"], n ∈ ([] : List String)) :=
  C5_round_robin_cycle_law ["a", "b"] 0 1 [] none (by decide) (by decide)
    (by decide) (by decide)

/-- Claim C6: for every pool and used set, the fill-in allocator leaves
the round-robin cursor (and all allocator state) unchanged, returns none
iff every pool name is used, and otherwise returns the pool name with
the lowest index not in the used set. -/
theorem C6_fill_in_minimality (names used : List String) (last : Option Nat) :
    (allocate_from_pool names AllocationMode.FillIn last used).2 = last ∧
    ((allocate_from_pool names AllocationMode.FillIn last used).1 = none ↔
      ∀ n ∈ names, n ∈ used) ∧
    (∀ x, (allocate_from_pool names AllocationMode.FillIn last used).1 = some x →
      ∃ i, ∃ hi : i < names.length, names.get ⟨i, hi⟩ = x ∧ x ∉ used ∧
        ∀ j, (hj : j < names.length) → j < i → names.get ⟨j, hj⟩ ∈ used) := by
  rcases hne : names.isEmpty with _ | _
  · have hred : allocate_from_pool names AllocationMode.FillIn last used =
        (match names.find? (fun n => ! used.contains n) with
         | some n => (some n, last)
         | none => ((none : Option String), last)) := by
      unfold allocate_from_pool
      rw [hne]
      rfl
    rcases hf : names.find? (fun n => ! used.contains n) with _ | n <;> rw [hf] at hred
    · refine ⟨by rw [hred], ?_, ?_⟩
      · rw [hred]
        constructor
        · intro _ x hx
          have hfx := List.find?_eq_none.mp hf x hx
          rw [← contains_iff_mem_str]
          revert hfx
          cases used.contains x <;> simp
        · intro _
          rfl
      · intro x hx
        rw [hred] at hx
        cases hx
    · have hpx := List.find?_some hf
      simp only [Bool.not_eq_true'] at hpx
      have hmemn : n ∈ names := List.mem_of_find?_eq_some hf
      have hnotused : n ∉ used := (contains_false_iff_str used n).mp hpx
      refine ⟨by rw [hred], ?_, ?_⟩
      · rw [hred]
        constructor
        · intro h
          cases h
        · intro h
          exact absurd (h n hmemn) hnotused
      · intro x hx
        rw [hred] at hx
        have hxn : n = x := Option.some.inj hx
        subst hxn
        obtain ⟨i, hi, hget, _, hmin⟩ := find?_first_idx _ names n hf
        refine ⟨i, hi, hget, hnotused, ?_⟩
        intro j hj hji
        have hj2 := hmin j hj hji
        rw [← contains_iff_mem_str]
        revert hj2
        cases used.contains (names.get ⟨j, hj⟩) <;> simp
  · have hnil : names = [] := List.isEmpty_iff.mp hne
    subst hnil
    refine ⟨rfl, by simp [allocate_from_pool], ?_⟩
    intro x hx
    simp [allocate_from_pool] at hx

/-- Witness for C6 at a concrete input: pool [a, b] with a used. -/
theorem C6_fill_in_minimality_witness :
    (allocate_from_pool ["a", "b"] AllocationMode.FillIn (some 7) ["a"]).2 = some 7 ∧
    ((allocate_from_pool ["a", "b"] AllocationMode.FillIn (some 7) ["a"]).1 = none ↔
      ∀ n ∈ ["a", "b"], n ∈ ["a"]) ∧
    (∀ x, (allocate_from_pool ["a", "b"] AllocationMode.FillIn (some 7) ["a"]).1 = some x →
      ∃ i, ∃ hi : i < (["a", "b"] : List String).length,
        (["a", "b"] : List String).get ⟨i, hi⟩ = x ∧ x ∉ (["a"] : List String) ∧
        ∀ j, (hj : j < (["a", "b"] : List String).length) → j < i →
          (["a", "b"] : List String).get ⟨j, hj⟩ ∈ (["a"] : List String)) :=
  C6_fill_in_minimality ["a", "b"] ["a"] (some 7)

/-- Claim C1 (code bug): evaluating the reconciler at a concrete input
shows the double allocation.  With pool [alpha, bravo] in fill-in mode
and two new default-named tabs in one snapshot, both tabs are recorded
with user_defined = false and pending_rename = alpha, and two rename
commands to "alpha" are issued: the same pool name is held by two
concurrently-open non-user tabs, because allocate_from_pool computes the
used set from current names only and ignores pending_rename targets. -/
theorem C1_double_allocation_bug :
    (handle_leader_tab_update
        ⟨["alpha", "bravo"], AllocationMode.FillIn, [], none⟩
        [⟨1, 0, "Tab #1", true⟩, ⟨2, 1, "Tab #2", false⟩]).1.known_tabs.map
      (fun t => (t.user_defined, t.pending_rename)) =
      [(false, some "alpha"), (false, some "alpha")] ∧
    (handle_leader_tab_update
        ⟨["alpha", "bravo"], AllocationMode.FillIn, [], none⟩
        [⟨1, 0, "Tab #1", true⟩, ⟨2, 1, "Tab #2", false⟩]).2 =
      [(1, "alpha"), (2, "alpha")] := by
  refine ⟨by rfl, by rfl⟩

/-- Claim C3, counterexample to the claim as stated: pool [alpha]
exhausted (held by tab 1); new default-named tab 2 is NOT recorded in
the canonical map after the pass, while the claim says it is recorded
with its default name. -/
theorem C3_exhaustion_counterexample :
    findTab (handle_leader_tab_update
        ⟨["alpha"], AllocationMode.RoundRobin,
         [⟨1, 0, "alpha", none, false, ActivityStatus.Idle, none, none, none, none⟩],
         some 0⟩
        [⟨1, 0, "alpha", true⟩, ⟨2, 1, "Tab #2", false⟩]).1.known_tabs 2 = none := by
  rfl

/-- Claim C3 (amended): when a new default-named tab arrives and the
allocator returns none (pool exhausted), the tab is NOT recorded in the
canonical map, no rename is issued for it, and no Leader state changes
at all (the condition is only logged; it is not surfaced as an error). -/
theorem C3_pool_exhaustion_not_recorded (st : LeaderState)
    (rs : List (Nat × String)) (tab : TabInfo)
    (hnew : findTab st.known_tabs tab.tab_id = none)
    (hdefault : strStartsWith "Tab #" tab.name = true)
    (hexhausted : (allocate_from_pool st.names st.mode st.last_assigned_idx
        (usedNames st.known_tabs)).1 = none) :
    processTab st rs tab = (st, rs) := by
  have hcursor := allocate_none_cursor st.names st.mode st.last_assigned_idx
    (usedNames st.known_tabs) hexhausted
  unfold processTab
  rw [hnew, if_pos hdefault]
  rcases halloc : allocate_from_pool st.names st.mode st.last_assigned_idx
      (usedNames st.known_tabs) with ⟨o, c⟩
  rw [halloc] at hexhausted hcursor
  dsimp only at hexhausted hcursor
  subst hexhausted
  subst hcursor
  show ({ st with last_assigned_idx := st.last_assigned_idx }, rs) = (st, rs)
  rfl

/-- Witness for C3 at a concrete input. -/
theorem C3_pool_exhaustion_not_recorded_witness :
    processTab
      ⟨["alpha"], AllocationMode.RoundRobin,
       [⟨1, 0, "alpha", none, false, ActivityStatus.Idle, none, none, none, none⟩],
       some 0⟩
      [] ⟨2, 1, "Tab #2", false⟩ =
      (⟨["alpha"], AllocationMode.RoundRobin,
        [⟨1, 0, "alpha", none, false, ActivityStatus.Idle, none, none, none, none⟩],
        some 0⟩, []) :=
  C3_pool_exhaustion_not_recorded _ _ _ (by rfl) (by rfl) (by rfl)

lemma applyNameLogic_tab_id (ct : CrewTabState) (tab : TabInfo) :
    (applyNameLogic ct tab).tab_id = ct.tab_id := by
  unfold applyNameLogic
  split <;> (split <;> rfl)

lemma refreshPosition_tab_id (ct : CrewTabState) (tab : TabInfo) :
    (refreshPosition ct tab).tab_id = ct.tab_id := by
  unfold refreshPosition
  split <;> rfl

lemma reconcileExisting_tab_id (ct : CrewTabState) (tab : TabInfo) :
    (reconcileExisting ct tab).tab_id = ct.tab_id := by
  unfold reconcileExisting
  rw [refreshPosition_tab_id, applyNameLogic_tab_id]

lemma updateTab_tab_ids (known : List CrewTabState) (id : Nat)
    (f : CrewTabState → CrewTabState) (hf : ∀ t, (f t).tab_id = t.tab_id) :
    (updateTab known id f).map (fun t => t.tab_id) = known.map (fun t => t.tab_id) := by
  unfold updateTab
  rw [List.map_map]
  apply List.map_congr_left
  intro t _
  show (if t.tab_id == id then f t else t).tab_id = t.tab_id
  split
  · exact hf t
  · rfl

lemma findTab_none_not_mem (known : List CrewTabState) (id : Nat)
    (h : findTab known id = none) : id ∉ known.map (fun t => t.tab_id) := by
  intro hmem
  obtain ⟨t, hin, hid⟩ := List.mem_map.mp hmem
  have := List.find?_eq_none.mp h t hin
  simp [hid] at this

lemma processTab_inv_known (st : LeaderState) (rs : List (Nat × String))
    (tab : TabInfo) (id : Nat)
    (hmem : id ∈ st.known_tabs.map (fun t => t.tab_id))
    (hrs : ∀ n, (id, n) ∉ rs) :
    id ∈ (processTab st rs tab).1.known_tabs.map (fun t => t.tab_id) ∧
    ∀ n, (id, n) ∉ (processTab st rs tab).2 := by
  unfold processTab
  rcases hfind : findTab st.known_tabs tab.tab_id with _ | ct
  · have hne : tab.tab_id ≠ id := by
      intro heq
      exact findTab_none_not_mem st.known_tabs tab.tab_id hfind (heq ▸ hmem)
    rcases hsw : strStartsWith "Tab #" tab.name with _ | _
    · rw [if_neg Bool.false_ne_true]
      refine ⟨?_, hrs⟩
      rw [List.map_append]
      exact List.mem_append_left _ hmem
    · rw [if_pos rfl]
      rcases halloc : allocate_from_pool st.names st.mode st.last_assigned_idx
          (usedNames st.known_tabs) with ⟨o, c⟩
      rcases o with _ | newName
      · exact ⟨hmem, hrs⟩
      · refine ⟨?_, ?_⟩
        · rw [List.map_append]
          exact List.mem_append_left _ hmem
        · intro n hn
          rcases List.mem_append.mp hn with h | h
          · exact hrs n h
          · have := List.mem_singleton.mp h
            exact hne (congrArg Prod.fst this).symm
  · refine ⟨?_, hrs⟩
    rw [updateTab_tab_ids _ _ _ (fun t => reconcileExisting_tab_id t tab)]
    exact hmem

lemma foldl_processTab_inv (tabs : List TabInfo) (id : Nat) :
    ∀ (st : LeaderState) (rs : List (Nat × String)),
      id ∈ st.known_tabs.map (fun t => t.tab_id) →
      (∀ n, (id, n) ∉ rs) →
      id ∈ (tabs.foldl (fun (p : LeaderState × List (Nat × String)) tab =>
          processTab p.1 p.2 tab) (st, rs)).1.known_tabs.map (fun t => t.tab_id) ∧
      ∀ n, (id, n) ∉ (tabs.foldl (fun (p : LeaderState × List (Nat × String)) tab =>
          processTab p.1 p.2 tab) (st, rs)).2 := by
  induction tabs with
  | nil =>
    intro st rs hmem hrs
    exact ⟨hmem, hrs⟩
  | cons tab rest ih =>
    intro st rs hmem hrs
    obtain ⟨hmem2, hrs2⟩ := processTab_inv_known st rs tab id hmem hrs
    have := ih (processTab st rs tab).1 (processTab st rs tab).2 hmem2 hrs2
    simpa using this

lemma handle_no_rename_for_known (st : LeaderState) (tabs : List TabInfo) (id : Nat)
    (hmem : id ∈ st.known_tabs.map (fun t => t.tab_id)) :
    ∀ n, (id, n) ∉ (handle_leader_tab_update st tabs).2 := by
  intro n
  unfold handle_leader_tab_update
  exact (foldl_processTab_inv tabs id st [] hmem (fun _ h => by cases h)).2 n

/-- Claim C2, counterexample to the claim as stated: a resign payload
does not preserve every field.  A record with a pending rename (or any
timestamp) loses it in the serialize/deserialize round trip, so the
adopted canonical map is not equal to S field-for-field. -/
theorem C2_resignation_counterexample :
    resignInherit
        [⟨1, 0, "Tab #1", some "alpha", false, ActivityStatus.Working,
          none, none, some 5, some 6⟩] ≠
      [⟨1, 0, "Tab #1", some "alpha", false, ActivityStatus.Working,
        none, none, some 5, some 6⟩] := by
  decide

/-- Claim C2 (amended): the Leader elected after a resignation adopts a
canonical map equal to S on every broadcast field (tab_id, position,
name, user_defined, status), with the local-only serde(skip) fields
(pending_rename, message ids, timestamps) reset to none; and its first
reconciliation pass issues no rename command (hence re-triggers no pool
allocation) for any tab_id already present in S. -/
theorem C2_resignation_continuity (S : List CrewTabState) (names : List String)
    (mode : AllocationMode) (cursor : Option Nat) (tabs : List TabInfo) :
    (∀ t ∈ S, (broadcastRecord t).tab_id = t.tab_id ∧
      (broadcastRecord t).position = t.position ∧
      (broadcastRecord t).name = t.name ∧
      (broadcastRecord t).user_defined = t.user_defined ∧
      (broadcastRecord t).status = t.status ∧
      (broadcastRecord t).pending_rename = none ∧
      (broadcastRecord t).last_msg_to = none ∧
      (broadcastRecord t).last_msg_from = none ∧
      (broadcastRecord t).status_updated_at = none ∧
      (broadcastRecord t).last_activity_at = none) ∧
    (∀ id, id ∈ S.map (fun t => t.tab_id) →
      ∀ n, (id, n) ∉
        (handle_leader_tab_update ⟨names, mode, resignInherit S, cursor⟩ tabs).2) := by
  constructor
  · intro t _
    exact ⟨rfl, rfl, rfl, rfl, rfl, rfl, rfl, rfl, rfl, rfl⟩
  · intro id hmem n
    apply handle_no_rename_for_known
    show id ∈ (S.map broadcastRecord).map (fun t => t.tab_id)
    rw [List.map_map]
    exact hmem

/-- Witness for C2 at a concrete input. -/
theorem C2_resignation_continuity_witness :
    (1, "bravo") ∉
      (handle_leader_tab_update
          ⟨["alpha", "bravo"], AllocationMode.RoundRobin,
           resignInherit
             [⟨1, 0, "alpha", none, false, ActivityStatus.Idle, none, none, none, none⟩],
           none⟩
          [⟨1, 0, "alpha", true⟩]).2 :=
  (C2_resignation_continuity
      [⟨1, 0, "alpha", none, false, ActivityStatus.Idle, none, none, none, none⟩]
      ["alpha", "bravo"] AllocationMode.RoundRobin none
      [⟨1, 0, "alpha", true⟩]).2 1 (by decide) "bravo"

/-- Claim C4, counterexample to the claim as stated: a tell request that
fails because the pane manifest is unavailable does NOT leave all Leader
state unchanged — the message-id counter has already been incremented. -/
theorem C4_tell_counterexample :
    (handle_tell_message
        ⟨[⟨1, 0, "Bob", none, true, ActivityStatus.Idle, none, none, none, none⟩],
         none, [⟨1, 0, "Bob", true⟩], "", 0, none⟩
        (some "bob") (some "hi") none 99).1 = TellOutcome.errNoManifest ∧
    (handle_tell_message
        ⟨[⟨1, 0, "Bob", none, true, ActivityStatus.Idle, none, none, none, none⟩],
         none, [⟨1, 0, "Bob", true⟩], "", 0, none⟩
        (some "bob") (some "hi") none 99).2.2.next_msg_id = 1 := by
  refine ⟨by rfl, by rfl⟩

/-- Claim C4 (amended): a tell request failing with a missing recipient,
missing body, or recipient-not-found returns the synchronous error,
writes nothing to any pane, and leaves the Leader state (including
next_msg_id, pending_tell_enter and all per-tab message fields) exactly
unchanged; one failing with no manifest or no terminal pane also writes
nothing and changes nothing except that next_msg_id has already been
incremented (the message id is consumed). -/
theorem C4_tell_failure_no_partial_state (st : TellState)
    (toArg payload paneArg : Option String) (now : Nat) :
    (((handle_tell_message st toArg payload paneArg now).1 = TellOutcome.errMissingTo ∨
      (handle_tell_message st toArg payload paneArg now).1 = TellOutcome.errMissingBody ∨
      (∃ d, (handle_tell_message st toArg payload paneArg now).1 = TellOutcome.errTabNotFound d)) →
      (handle_tell_message st toArg payload paneArg now).2.1 = [] ∧
      (handle_tell_message st toArg payload paneArg now).2.2 = st) ∧
    (((handle_tell_message st toArg payload paneArg now).1 = TellOutcome.errNoManifest ∨
      (∃ d, (handle_tell_message st toArg payload paneArg now).1 = TellOutcome.errNoTerminalPane d)) →
      (handle_tell_message st toArg payload paneArg now).2.1 = [] ∧
      (handle_tell_message st toArg payload paneArg now).2.2 =
        { st with next_msg_id := st.next_msg_id + 1 }) := by
  unfold handle_tell_message
  rcases toArg with _ | dest
  · simp
  · rcases payload with _ | message
    · simp
    · dsimp only
      by_cases hm : message = ""
      · rw [if_pos hm]
        simp
      · rw [if_neg hm]
        rcases hfind : st.known_tabs.find? (fun t => eqIgnoreCase t.name dest) with _ | t <;>
          try rw [hfind]
        · simp
        · dsimp only
          rcases hman : st.pane_manifest with _ | manifest <;> try rw [hman]
          · simp
          · dsimp only
            rcases hpane : (manifest.lookup t.position).bind
                (fun panes => panes.find? (fun p => ! p.is_plugin)) with _ | pane <;>
              try rw [hpane]
            · simp
            · simp

/-- Witness for C4 at a concrete input (missing recipient). -/
theorem C4_tell_failure_no_partial_state_witness :
    (handle_tell_message ⟨[], none, [], "", 5, none⟩ none none none 99).2.1 = [] ∧
    (handle_tell_message ⟨[], none, [], "", 5, none⟩ none none none 99).2.2 =
      ⟨[], none, [], "", 5, none⟩ :=
  (C4_tell_failure_no_partial_state ⟨[], none, [], "", 5, none⟩ none none none 99).1
    (Or.inl (by rfl))

lemma statusStale_iff (threshold now : Nat) (t : CrewTabState) :
    statusStale threshold now t = true ↔
      ∃ u, t.status_updated_at = some u ∧ threshold ≤ now - u := by
  unfold statusStale
  rcases h : t.status_updated_at with _ | u
  · simp
  · simp

lemma activityStale_iff (threshold now : Nat) (t : CrewTabState) :
    activityStale threshold now t = true ↔
      (t.last_activity_at = none ∨
        ∃ a, t.last_activity_at = some a ∧ threshold ≤ now - a) := by
  unfold activityStale
  rcases h : t.last_activity_at with _ | a
  · simp
  · simp

lemma paneRenderWakeTab_tab_id (now : Nat) (t : CrewTabState) :
    (paneRenderWakeTab now t).tab_id = t.tab_id := by
  unfold paneRenderWakeTab
  split <;> rfl

lemma findTab_updateTab (known : List CrewTabState) (id : Nat)
    (f : CrewTabState → CrewTabState) (hf : ∀ t, (f t).tab_id = t.tab_id) :
    findTab (updateTab known id f) id = (findTab known id).map f := by
  induction known with
  | nil => rfl
  | cons t ts ih =>
    unfold findTab updateTab at *
    rw [List.map_cons, List.find?_cons, List.find?_cons]
    rcases hid : (t.tab_id == id) with _ | _
    · simp only [hid, Bool.false_eq_true, if_false]
      exact ih
    · have h2 : ((f t).tab_id == id) = true := by
        rw [hf t]
        exact hid
      simp [hid, h2]

/-- Claim C7: on a sweep with nonzero threshold, a tab is forced to
Sleeping iff its status is neither Sleeping nor Unknown, its status
timestamp is at least threshold old, and activity was never observed or
is at least threshold old; with threshold zero the sweep never changes
anything; and a terminal-output event resolving to a Sleeping tab
immediately sets that tab to Idle. -/
theorem C7_idle_sleep_monitor (threshold now : Nat) (t : CrewTabState)
    (known : List CrewTabState) (manifest : Option PaneManifest)
    (tabs : List TabInfo) (pane_id id : Nat) (tr : CrewTabState)
    (_h0 : 0 < threshold) :
    (((sweepTab threshold now t).status = ActivityStatus.Sleeping ∧
        t.status ≠ ActivityStatus.Sleeping) ↔
      (t.status ≠ ActivityStatus.Sleeping ∧ t.status ≠ ActivityStatus.Unknown ∧
        (∃ u, t.status_updated_at = some u ∧ threshold ≤ now - u) ∧
        (t.last_activity_at = none ∨
          ∃ a, t.last_activity_at = some a ∧ threshold ≤ now - a))) ∧
    timerSweep 0 now known = known ∧
    (resolvePaneTab manifest tabs pane_id = some id →
      findTab known id = some tr →
      tr.status = ActivityStatus.Sleeping →
      ∃ t2, findTab (handlePaneRender manifest tabs known now pane_id) id = some t2 ∧
        t2.status = ActivityStatus.Idle ∧ t2.status_updated_at = some now) := by
  refine ⟨?_, by unfold timerSweep; simp, ?_⟩
  · unfold sweepTab
    by_cases hskip : t.status = ActivityStatus.Sleeping ∨ t.status = ActivityStatus.Unknown
    · rw [if_pos hskip]
      rcases hskip with h | h <;> simp [h]
    · rw [if_neg hskip]
      push_neg at hskip
      obtain ⟨h1, h2⟩ := hskip
      by_cases hb : (statusStale threshold now t && activityStale threshold now t) = true
      · rw [if_pos hb]
        rw [Bool.and_eq_true] at hb
        constructor
        · intro _
          exact ⟨h1, h2, (statusStale_iff threshold now t).mp hb.1,
            (activityStale_iff threshold now t).mp hb.2⟩
        · intro _
          exact ⟨rfl, h1⟩
      · rw [if_neg hb]
        constructor
        · rintro ⟨hs, hns⟩
          exact absurd hs hns
        · rintro ⟨_, _, hsu, hla⟩
          refine absurd ?_ hb
          rw [Bool.and_eq_true]
          exact ⟨(statusStale_iff _ _ _).mpr hsu, (activityStale_iff _ _ _).mpr hla⟩
  · intro hres hfind hsleep
    unfold handlePaneRender
    rw [hres]
    show ∃ t2, findTab (updateTab known id (paneRenderWakeTab now)) id = some t2 ∧
      t2.status = ActivityStatus.Idle ∧ t2.status_updated_at = some now
    rw [findTab_updateTab known id _ (paneRenderWakeTab_tab_id now), hfind]
    refine ⟨paneRenderWakeTab now tr, rfl, ?_, ?_⟩
    · simp [paneRenderWakeTab, hsleep]
    · simp [paneRenderWakeTab, hsleep]

/-- Witness for C7 at a concrete input: threshold 300, a stale Working
tab, and a Sleeping tab woken by terminal output on pane 42. -/
theorem C7_idle_sleep_monitor_witness :
    ∃ t2, findTab
        (handlePaneRender (some [(0, [⟨42, false⟩])]) [⟨1, 0, "alpha", true⟩]
          [⟨1, 0, "alpha", none, false, ActivityStatus.Sleeping, none, none, some 0, some 0⟩]
          1000 42) 1 = some t2 ∧
      t2.status = ActivityStatus.Idle ∧ t2.status_updated_at = some 1000 :=
  (C7_idle_sleep_monitor 300 1000
      ⟨2, 1, "bravo", none, false, ActivityStatus.Working, none, none, some 0, some 0⟩
      [⟨1, 0, "alpha", none, false, ActivityStatus.Sleeping, none, none, some 0, some 0⟩]
      (some [(0, [⟨42, false⟩])]) [⟨1, 0, "alpha", true⟩] 42 1
      ⟨1, 0, "alpha", none, false, ActivityStatus.Sleeping, none, none, some 0, some 0⟩
      (by decide)).2.2 (by rfl) (by rfl) (by rfl)

/-- Claim C8, counterexample to the claim as stated: a status-change
attempt with an unrecognized keyword is rejected before any audit-log
write, so it appends zero records, not one. -/
theorem C8_audit_counterexample :
    (update_name_status [] 0 "Alice" "bogus").2.2 = [] ∧
    (update_name_status [] 0 "Alice" "bogus").2.2.length ≠ 1 := by
  refine ⟨by rfl, by decide⟩

/-- Claim C8 (amended): every status-change attempt with a recognized
keyword routed by name appends exactly one audit record; a pane-routed
attempt appends at most one, and appends none exactly when the keyword
is unrecognized or the resolved tab_id has no record in the canonical
map (or a record with an empty name, the source's sentinel); every
appended record carries the "status" record-type tag and the timestamp. -/
theorem C8_status_audit_log (known : List CrewTabState) (tabs : List TabInfo)
    (manifest : Option PaneManifest) (now pane_id : Nat) (name s : String) :
    ((update_name_status known now name s).2.2.length =
      if (parseStatus s).isSome then 1 else 0) ∧
    (∀ r ∈ (update_name_status known now name s).2.2, r.tag = "status" ∧ r.ts = now) ∧
    ((update_pane_status known tabs manifest now pane_id s).2.2.length ≤ 1) ∧
    ((update_pane_status known tabs manifest now pane_id s).2.2 = [] ↔
      (parseStatus s = none ∨
        ∃ id, resolvePaneTab manifest tabs pane_id = some id ∧
          (findTab known id = none ∨ ∃ t, findTab known id = some t ∧ t.name = ""))) ∧
    (∀ r ∈ (update_pane_status known tabs manifest now pane_id s).2.2,
      r.tag = "status" ∧ r.ts = now) := by
  have hname : ((update_name_status known now name s).2.2.length =
      if (parseStatus s).isSome then 1 else 0) ∧
      (∀ r ∈ (update_name_status known now name s).2.2, r.tag = "status" ∧ r.ts = now) := by
    unfold update_name_status
    rcases hp : parseStatus s with _ | stat
    · simp [hp]
    · rcases hfind : known.find? (fun t => t.name == name) with _ | t
      · simp [hp, hfind]
      · simp [hp, hfind]
  have hpane : ((update_pane_status known tabs manifest now pane_id s).2.2.length ≤ 1) ∧
      ((update_pane_status known tabs manifest now pane_id s).2.2 = [] ↔
        (parseStatus s = none ∨
          ∃ id, resolvePaneTab manifest tabs pane_id = some id ∧
            (findTab known id = none ∨ ∃ t, findTab known id = some t ∧ t.name = ""))) ∧
      (∀ r ∈ (update_pane_status known tabs manifest now pane_id s).2.2,
        r.tag = "status" ∧ r.ts = now) := by
    unfold update_pane_status
    rcases hp : parseStatus s with _ | stat
    · simp [hp]
    · rcases hpos : paneTabPos manifest pane_id with _ | pos
      · simp [resolvePaneTab, hpos, hp]
      · rcases hid : posTabId tabs pos with _ | tid
        · simp [resolvePaneTab, hpos, hid, hp]
        · rcases hft : findTab known tid with _ | t
          · simp [resolvePaneTab, hpos, hid, hft, hp]
          · by_cases hn : t.name = ""
            · simp [resolvePaneTab, hpos, hid, hft, hp, hn]
            · simp [resolvePaneTab, hpos, hid, hft, hp, hn]
  exact ⟨hname.1, hname.2, hpane.1, hpane.2.1, hpane.2.2⟩

/-- Witness for C8 at a concrete input. -/
theorem C8_status_audit_log_witness :
    (update_name_status
        [⟨1, 0, "Bob", none, true, ActivityStatus.Idle, none, none, none, none⟩]
        10 "Bob" "working").2.2.length =
      if (parseStatus "working").isSome then 1 else 0 :=
  (C8_status_audit_log
      [⟨1, 0, "Bob", none, true, ActivityStatus.Idle, none, none, none, none⟩]
      [] none 10 5 "Bob" "working").1

/-- Claim C9, counterexample to the claim as stated: an instance that
has already received a state broadcast (non-empty received_tabs, proof
of Leader activity) still self-triggers an election on its first tab
snapshot, because the guard only checks the local tabs cache. -/
theorem C9_election_counterexample :
    (handleTabUpdateElection
        ⟨false, false, [],
         [⟨1, 0, "Bob", none, true, ActivityStatus.Idle, none, none, none, none⟩]⟩
        [⟨1, 0, "Bob", true⟩]).2 = true ∧
    (⟨false, false, [],
      [⟨1, 0, "Bob", none, true, ActivityStatus.Idle, none, none, none, none⟩]⟩ :
        RendererView).received_tabs ≠ [] := by
  refine ⟨by rfl, by decide⟩

/-- Claim C9 (amended): a non-Leader instance self-triggers an election
on a tab snapshot iff it is not Leader, has no election pending, and has
not yet cached any tab snapshot; previously received ACKs or state
broadcasts (received_tabs) have no influence on the trigger. -/
theorem C9_first_snapshot_election (st : RendererView) (tabs : List TabInfo)
    (rt : List CrewTabState) :
    ((handleTabUpdateElection st tabs).2 = true ↔
      (st.is_leader = false ∧ st.election_pending = false ∧ st.tabs = [])) ∧
    (handleTabUpdateElection { st with received_tabs := rt } tabs).2 =
      (handleTabUpdateElection st tabs).2 ∧
    ((handleTabUpdateElection st tabs).2 = true →
      (handleTabUpdateElection st tabs).1.election_pending = true) := by
  have hguard : ∀ s : RendererView, tabUpdateStartsElection s = true ↔
      (s.is_leader = false ∧ s.election_pending = false ∧ s.tabs = []) := by
    intro s
    unfold tabUpdateStartsElection
    rw [Bool.and_eq_true, Bool.and_eq_true, Bool.not_eq_true', Bool.not_eq_true']
    rw [List.isEmpty_iff]
    tauto
  refine ⟨?_, ?_, ?_⟩
  · unfold handleTabUpdateElection
    by_cases hg : tabUpdateStartsElection st = true
    · rw [if_pos hg]
      simpa using (hguard st).mp hg
    · rw [if_neg hg]
      have := (hguard st).not.mp hg
      simpa using this
  · unfold handleTabUpdateElection
    have hsame : tabUpdateStartsElection { st with received_tabs := rt } =
        tabUpdateStartsElection st := by
      unfold tabUpdateStartsElection
      rfl
    rw [hsame]
    by_cases hg : tabUpdateStartsElection st = true
    · rw [if_pos hg, if_pos hg]
    · rw [if_neg hg, if_neg hg]
  · unfold handleTabUpdateElection
    by_cases hg : tabUpdateStartsElection st = true
    · rw [if_pos hg]
      intro _
      rfl
    · rw [if_neg hg]
      intro h
      cases h

/-- Witness for C9 at a concrete input. -/
theorem C9_first_snapshot_election_witness :
    ((handleTabUpdateElection ⟨false, false, [], []⟩ [⟨1, 0, "Bob", true⟩]).2 = true ↔
      ((false : Bool) = false ∧ (false : Bool) = false ∧
        (⟨false, false, [], []⟩ : RendererView).tabs = [])) ∧
    (handleTabUpdateElection
        { (⟨false, false, [], []⟩ : RendererView) with
          received_tabs :=
            [⟨1, 0, "Bob", none, true, ActivityStatus.Idle, none, none, none, none⟩] }
        [⟨1, 0, "Bob", true⟩]).2 =
      (handleTabUpdateElection ⟨false, false, [], []⟩ [⟨1, 0, "Bob", true⟩]).2 ∧
    ((handleTabUpdateElection ⟨false, false, [], []⟩ [⟨1, 0, "Bob", true⟩]).2 = true →
      (handleTabUpdateElection ⟨false, false, [], []⟩
          [⟨1, 0, "Bob", true⟩]).1.election_pending = true) :=
  C9_first_snapshot_election ⟨false, false, [], []⟩ [⟨1, 0, "Bob", true⟩]
    [⟨1, 0, "Bob", none, true, ActivityStatus.Idle, none, none, none, none⟩]

/-- Claim C10: a newly seen tab is classified as host-default-named iff
its name starts with the literal prefix "Tab #": if so (and the pool is
not exhausted) it is recorded with user_defined = false and the
allocated name as pending_rename, and a rename command is issued;
otherwise it is recorded with user_defined = true, no pending rename, no
allocation and no rename command.  The classification looks only at the
name prefix, so a user-created tab whose name happens to start with
"Tab #" is renamed from the pool. -/
theorem C10_default_name_detection (st : LeaderState)
    (rs : List (Nat × String)) (tab : TabInfo)
    (hnew : findTab st.known_tabs tab.tab_id = none) :
    (strStartsWith "Tab #" tab.name = false →
      processTab st rs tab =
        ({ st with known_tabs := st.known_tabs ++ [newTabRecord tab none true] }, rs)) ∧
    (∀ n c, strStartsWith "Tab #" tab.name = true →
      allocate_from_pool st.names st.mode st.last_assigned_idx
          (usedNames st.known_tabs) = (some n, c) →
      processTab st rs tab =
        ({ st with known_tabs := st.known_tabs ++ [newTabRecord tab (some n) false]
                   last_assigned_idx := c },
         rs ++ [(tab.tab_id, n)])) ∧
    (newTabRecord tab none true).user_defined = true ∧
    (newTabRecord tab none true).pending_rename = none ∧
    (∀ n, (newTabRecord tab (some n) false).user_defined = false ∧
      (newTabRecord tab (some n) false).pending_rename = some n) := by
  refine ⟨?_, ?_, rfl, rfl, fun n => ⟨rfl, rfl⟩⟩
  · intro hsw
    unfold processTab
    rw [hnew]
    rw [if_neg (by rw [hsw]; exact Bool.false_ne_true)]
  · intro n c hsw halloc
    unfold processTab
    rw [hnew]
    rw [if_pos hsw, halloc]

/-- Witness for C10 at a concrete input. -/
theorem C10_default_name_detection_witness :
    processTab ⟨["alpha"], AllocationMode.RoundRobin, [], none⟩ [] ⟨7, 0, "Tab #3", true⟩ =
      ({ (⟨["alpha"], AllocationMode.RoundRobin, [], none⟩ : LeaderState) with
         known_tabs := [] ++ [newTabRecord ⟨7, 0, "Tab #3", true⟩ (some "alpha") false]
         last_assigned_idx := some 0 },
       [] ++ [(7, "alpha")]) :=
  (C10_default_name_detection ⟨["alpha"], AllocationMode.RoundRobin, [], none⟩ []
      ⟨7, 0, "Tab #3", true⟩ (by rfl)).2.1 "alpha" (some 0) (by decide) (by rfl)
